import Mathlib

/-!
Shallow embedding of `src/ensemblAPI.py` (class `EnsemblRestClient`).

Modelling conventions:
* Python JSON values are the inductive `Json`; `json.loads` of a response body
  is abstracted by letting the mocked transport carry `Option Json` directly
  (`none` models an empty response body, for which the source leaves `data`
  as `None`; `some j` models a non-empty body whose parse is `j`).
* The network is a scripted transport: a list of `HTTPResponse` consumed one
  per issued request.  `e.headers` of an HTTP error is only ever consulted
  for the `Retry-After` key, whose value the source immediately converts with
  `float`; the model therefore stores that single field as `Option Rat`.
* Wall-clock time is a mocked clock of type `Rat`; `time.sleep(d)` advances
  the clock by `d` and is logged in `sleeps`; `time.time()` reads the clock.
* `sys.stderr.write` appends to the `stderr` log.
* Python dictionaries (headers, params, JSON objects) are association lists
  in insertion order; in-place mutation of the caller's header dict is
  explicit state passing: the final dictionary is returned in the outcome.
* Python exceptions are `Except PyError`; an uncaught exception is an
  `.error` result.
-/

namespace EnsemblAPI

/-- JSON values, as produced by `json.loads`. -/
inductive Json where
  | null
  | bool (b : Bool)
  | num (n : Int)
  | str (s : String)
  | arr (elems : List Json)
  | obj (fields : List (String × Json))

/-- Python truthiness of a JSON value (`if genes:` / `if info:` in the source):
`None`, `False`, `0`, `""`, `[]` and the empty dict are falsy. -/
def Json.truthy : Json → Bool
  | .null => false
  | .bool b => b
  | .num n => n != 0
  | .str s => !s.isEmpty
  | .arr xs => !xs.isEmpty
  | .obj fs => !fs.isEmpty

/-- Python exception classes reachable in the modelled code paths. -/
inductive PyError where
  | typeError
  | indexError
  | keyError
  | attributeError
deriving DecidableEq

/-- Association-list lookup, modelling `d[k]` / `k in d` on a Python dict
(first binding wins, as keys are unique in a dict). -/
def dictLookup {α : Type} (k : String) : List (String × α) → Option α
  | [] => none
  | (k2, v) :: rest => if k2 = k then some v else dictLookup k rest

/-- One scripted transport response: `urllib.request.urlopen` either returns
(`success`, carrying the parsed body or `none` for an empty body) or raises
`urllib.error.HTTPError` (`httpError`, carrying `e.code`, `e.reason` and the
optional `Retry-After` header as a number). -/
inductive HTTPResponse where
  | success (content : Option Json)
  | httpError (code : Nat) (reason : String) (retryAfter : Option Rat)

/-- A value of the `params` dict: a plain string or a list of strings. -/
inductive ParamValue where
  | scalar (s : String)
  | seq (xs : List String)

abbrev Params := List (String × ParamValue)

/-- Characters `urllib.parse.quote_plus` leaves unescaped. -/
def isUrlSafe (c : Char) : Bool :=
  c.isAlphanum || c = '_' || c = '.' || c = '-' || c = '~'

/-- UTF-8 bytes of a character, for percent-encoding. -/
def utf8Bytes (c : Char) : List Nat :=
  let n := c.toNat
  if n < 128 then [n]
  else if n < 2048 then [192 + n / 64, 128 + n % 64]
  else if n < 65536 then [224 + n / 4096, 128 + (n / 64) % 64, 128 + n % 64]
  else [240 + n / 262144, 128 + (n / 4096) % 64, 128 + (n / 64) % 64, 128 + n % 64]

/-- Uppercase hex digit. -/
def hexDigit (n : Nat) : Char :=
  if n < 10 then Char.ofNat (48 + n) else Char.ofNat (55 + n)

/-- Percent-encoding of one byte, `%XX`. -/
def percentByte (b : Nat) : String :=
  String.mk ['%', hexDigit (b / 16), hexDigit (b % 16)]

/-- `urllib.parse.quote_plus`: safe characters kept, space becomes `+`,
anything else is percent-encoded byte by byte. -/
def quotePlus (s : String) : String :=
  s.toList.foldl
    (fun acc c =>
      if isUrlSafe c then acc.push c
      else if c = ' ' then acc.push '+'
      else acc ++ String.join ((utf8Bytes c).map percentByte)) ""

/-- Python `str` of a list of strings, e.g. `str(["a"])`; only reachable when
`urlencode` is given a sequence value with `doseq` falsy. -/
def pyStrOfList (xs : List String) : String :=
  let q := String.mk [Char.ofNat 39]
  "[" ++ String.intercalate ", " (xs.map (fun x => q ++ x ++ q)) ++ "]"

/-- `urllib.parse.urlencode(params, doseq)`: `k=v` pairs joined by `&`;
with `doseq` truthy a sequence value yields one pair per element, otherwise
the `str()` of the whole sequence is quoted as a single value. -/
def urlencode (params : Params) (doseq : Bool) : String :=
  String.intercalate "&"
    (params.flatMap (fun kv =>
      match kv.2, doseq with
      | .scalar s, _ => [quotePlus kv.1 ++ "=" ++ quotePlus s]
      | .seq xs, true => xs.map (fun x => quotePlus kv.1 ++ "=" ++ quotePlus x)
      | .seq xs, false => [quotePlus kv.1 ++ "=" ++ quotePlus (pyStrOfList xs)]))

/-- Client state: `__init__` fields of `EnsemblRestClient`. -/
structure Client where
  server : String
  reqs_per_sec : Nat
  req_count : Nat
  last_req : Rat
deriving DecidableEq

/-- Result of the rate-limit check (source lines 35-40): possibly updated
client counters, the clock after any sleep, and the sleeps performed. -/
structure ThrottleOut where
  client : Client
  clock : Rat
  sleeps : List Rat

/-- The rate limiter of `perform_rest_action` (source lines 35-40): when the
issued-request count has reached the per-second limit, sleep out the rest of
the current second if needed, then reset the count and set the checkpoint
`last_req` to the current (post-sleep) time. -/
def rateLimit (c : Client) (clock : Rat) : ThrottleOut :=
  if c.reqs_per_sec ≤ c.req_count then
    let delta := clock - c.last_req
    if delta < 1 then
      let clock2 := clock + (1 - delta)
      { client := { c with req_count := 0, last_req := clock2 },
        clock := clock2, sleeps := [1 - delta] }
    else
      { client := { c with req_count := 0, last_req := clock },
        clock := clock, sleeps := [] }
  else
    { client := c, clock := clock, sleeps := [] }

/-- Everything observable after a `perform_rest_action` call: the returned
`data`, the client counters, the caller's header dict after in-place
mutation, the clock, the unconsumed transport script, the requests that
reached the transport (full URL and headers, in order), the sleeps
performed, and the stderr log. -/
structure RestOutcome where
  data : Option Json
  client : Client
  hdrs : List (String × String)
  clock : Rat
  script : List HTTPResponse
  requests : List (String × List (String × String))
  sleeps : List Rat
  stderr : List String

/-- Header-dict preprocessing (source lines 23-27): default to the empty
dict, then insert `Content-Type: application/json` if absent. -/
def withContentType (hdrs0 : Option (List (String × String))) :
    List (String × String) :=
  let h := match hdrs0 with | none => [] | some h => h
  if dictLookup "Content-Type" h = none then
    h ++ [("Content-Type", "application/json")]
  else h

/-- Endpoint preprocessing (source lines 29-30): append the encoded query
string when `params` is truthy (non-empty). -/
def encodeEndpoint (endpoint : String) (params : Params) (doseq : Bool) :
    String :=
  if params.isEmpty then endpoint else endpoint ++ "?" ++ urlencode params doseq

/-- `EnsemblRestClient.perform_rest_action` (source lines 22-61) against a
scripted transport.  On HTTP 429 with a `Retry-After` header the source
sleeps `float(retry) + 1.0` seconds and recursively re-invokes itself with
the already-encoded endpoint and the same header dict, but without params —
and, as on line 57, DISCARDS the recursive call's return value, so `data`
stays `None` in the outer frame.  On other HTTP errors it writes the
diagnostic line to stderr and returns `None`.  An exhausted script is
modelled as a success with an empty body. -/
def performRestAction (c : Client) (clock : Rat) (script : List HTTPResponse)
    (endpoint0 : String) (hdrs0 : Option (List (String × String)))
    (params : Params) (doseq : Bool) : RestOutcome :=
  let hdrs := withContentType hdrs0
  let endpoint := encodeEndpoint endpoint0 params doseq
  let t := rateLimit c clock
  let url := t.client.server ++ endpoint
  match script with
  | [] =>
      { data := none,
        client := { t.client with req_count := t.client.req_count + 1 },
        hdrs := hdrs, clock := t.clock, script := [],
        requests := [(url, hdrs)], sleeps := t.sleeps, stderr := [] }
  | resp :: rest =>
      match resp with
      | .success content =>
          { data := content,
            client := { t.client with req_count := t.client.req_count + 1 },
            hdrs := hdrs, clock := t.clock, script := rest,
            requests := [(url, hdrs)], sleeps := t.sleeps, stderr := [] }
      | .httpError code reason retryAfter =>
          if code = 429 then
            match retryAfter with
            | some r =>
                let out := performRestAction t.client (t.clock + (r + 1)) rest
                  endpoint (some hdrs) [] false
                { data := none, client := out.client, hdrs := out.hdrs,
                  clock := out.clock, script := out.script,
                  requests := (url, hdrs) :: out.requests,
                  sleeps := t.sleeps ++ (r + 1) :: out.sleeps,
                  stderr := out.stderr }
            | none =>
                { data := none, client := t.client, hdrs := hdrs,
                  clock := t.clock, script := rest,
                  requests := [(url, hdrs)], sleeps := t.sleeps, stderr := [] }
          else
            { data := none, client := t.client, hdrs := hdrs,
              clock := t.clock, script := rest,
              requests := [(url, hdrs)], sleeps := t.sleeps,
              stderr := ["Request failed for " ++ endpoint ++
                ": Status code: " ++ toString code ++
                " Reason: " ++ reason ++ "\n"] }

/-- Characters matched by the regex class `[0-9]`. -/
def isDigitB (c : Char) : Bool :=
  decide ('0' ≤ c) && decide (c ≤ '9')

/-- Match the tail `:[0-9]*-[0-9]*` of the region regex at the head of `l`,
returning the matched characters.  Both starred classes are greedy; since a
digit run followed by a mandatory non-digit literal never needs backtracking,
the greedy run is exact. -/
def matchTail (l : List Char) : Option (List Char) :=
  match l with
  | ':' :: r1 =>
      match r1.dropWhile isDigitB with
      | '-' :: r3 =>
          some (':' :: (r1.takeWhile isDigitB ++ '-' :: r3.takeWhile isDigitB))
      | _ => none
  | _ => none

/-- Match the full regex `([XY]|[0-9]*):[0-9]*-[0-9]*` at the head of `l`.
The alternation tries `[XY]` first; if the head is `X` or `Y` and the tail
fails, the `[0-9]*` alternative also fails (it would need `:` where the
`X`/`Y` stands), so no further backtracking arises. -/
def matchHere (l : List Char) : Option (List Char) :=
  match l with
  | [] => none
  | c :: r =>
      if c = 'X' ∨ c = 'Y' then (matchTail r).map (fun m => c :: m)
      else
        (matchTail (l.dropWhile isDigitB)).map
          (fun m => l.takeWhile isDigitB ++ m)

/-- `re.search` for the region regex: first (leftmost) match wins. -/
def reSearch : List Char → Option (List Char)
  | [] => none
  | c :: rest =>
      match matchHere (c :: rest) with
      | some m => some m
      | none => reSearch rest

/-- Argument to `format_region`: either a Python string or a 3-element
sequence of strings (`str()` is the identity on the string elements). -/
inductive RegionInput where
  | str (s : String)
  | seq (chrom begPos endPos : String)

/-- `EnsemblRestClient.format_region` (source lines 152-166).  On a string,
`re.search` runs; if it finds a match, `m.group()` is returned; if not,
`m` is `None` and `m.group()` raises an uncaught `AttributeError`.  On a
sequence, `re.search` raises `TypeError`, which the handler catches and
formats the three elements as `chrom:start-end`. -/
def format_region : RegionInput → Except PyError String
  | .str s =>
      match reSearch s.toList with
      | some m => .ok (String.mk m)
      | none => .error .attributeError
  | .seq chrom begPos endPos => .ok (chrom ++ ":" ++ begPos ++ "-" ++ endPos)

/-- Python `j[0]` on a JSON value. -/
def jsonIndex0 : Json → Except PyError Json
  | .arr (x :: _) => .ok x
  | .arr [] => .error .indexError
  | .str s =>
      match s.toList with
      | c :: _ => .ok (.str (String.mk [c]))
      | [] => .error .indexError
  | .obj _ => .error .keyError
  | _ => .error .typeError

/-- Python `j[k]` for a string key `k` on a JSON value. -/
def jsonGetKey (j : Json) (k : String) : Except PyError Json :=
  match j with
  | .obj fields =>
      match dictLookup k fields with
      | some v => .ok v
      | none => .error .keyError
  | _ => .error .typeError

/-- `EnsemblRestClient.get_ensembl_id` (source lines 63-88): dispatch the
symbol cross-reference lookup with `object_type=gene`; on a truthy result,
either index out `genes[0]["id"]` or return the full list; otherwise return
`None`.  The pair carries the returned value and the dispatch outcome. -/
def getEnsemblId (c : Client) (clock : Rat) (script : List HTTPResponse)
    (species symbol : String) (only_stable_id : Bool) :
    Except PyError (Option Json) × RestOutcome :=
  let out := performRestAction c clock script
    ("/xrefs/symbol/" ++ species ++ "/" ++ symbol) none
    [("object_type", .scalar "gene")] false
  let res : Except PyError (Option Json) :=
    match out.data with
    | some genes =>
        if genes.truthy then
          if only_stable_id then
            match jsonIndex0 genes with
            | .ok g0 =>
                match jsonGetKey g0 "id" with
                | .ok v => .ok (some v)
                | .error e => .error e
            | .error e => .error e
          else .ok (some genes)
        else .ok none
    | none => .ok none
  (res, out)

/-- `EnsemblRestClient.get_ensembl_info` (source lines 102-123): build the
lookup path — with an `expand=1` query when requested, and with a bare
trailing `?` otherwise — dispatch it, and return the truthy result or
`None`. -/
def getEnsemblInfo (c : Client) (clock : Rat) (script : List HTTPResponse)
    (identifier : String) (expand : Bool) : Option Json × RestOutcome :=
  let ext :=
    if expand then "/lookup/id/" ++ identifier ++ "?expand=1"
    else "/lookup/id/" ++ identifier ++ "?"
  let out := performRestAction c clock script ext none [] false
  (match out.data with
   | some info => if info.truthy then some info else none
   | none => none, out)

/-- `EnsemblRestClient.get_overlap` (source lines 125-150): replace a falsy
`features` argument (`None` or the empty list) by `["gene"]`, normalize the
region through `format_region` (whose exception propagates), and dispatch
the region-overlap endpoint with the feature list as a sequence-valued
parameter and `doseq=1`. -/
def getOverlap (c : Client) (clock : Rat) (script : List HTTPResponse)
    (species : String) (region : RegionInput)
    (features : Option (List String)) :
    Except PyError (Option Json × RestOutcome) :=
  let fs :=
    match features with
    | none => ["gene"]
    | some l => if l.isEmpty then ["gene"] else l
  match format_region region with
  | .error e => .error e
  | .ok reg =>
      let out := performRestAction c clock script
        ("/overlap/region/" ++ species ++ "/" ++ reg) none
        [("feature", .seq fs)] true
      .ok
        (match out.data with
         | some info => if info.truthy then some info else none
         | none => none, out)

/-- Driver for throttle reasoning: a sequence of `perform_rest_action`
calls against a mocked clock.  Each call is a triple of the time that
passes before the call is issued, the endpoint, and the scripted response
body; the clock otherwise advances only through sleeps. -/
structure RunOut where
  client : Client
  clock : Rat
  sleeps : List Rat

/-- Run a list of calls, threading client counters and the mocked clock. -/
def runCalls (c : Client) (clock : Rat) :
    List (Rat × String × Option Json) → RunOut
  | [] => { client := c, clock := clock, sleeps := [] }
  | (gap, endp, body) :: rest =>
      let out := performRestAction c (clock + gap) [.success body] endp
        none [] false
      let r := runCalls out.client out.clock rest
      { client := r.client, clock := r.clock, sleeps := out.sleeps ++ r.sleeps }

/-- A run of characters from the regex class `[0-9]`. -/
def DigitsOnly (d : List Char) : Prop := ∀ c ∈ d, isDigitB c = true

instance decDigitsOnly (d : List Char) : Decidable (DigitsOnly d) :=
  List.decidableBAll (fun c => isDigitB c = true) d

/-- The group alternative `([XY]|[0-9]*)` of the region regex. -/
def GroupOk (g : List Char) : Prop := g = ['X'] ∨ g = ['Y'] ∨ DigitsOnly g

/-- The region regex `([XY]|[0-9]*):[0-9]*-[0-9]*` matches at the head of
`l`: some decomposition into group, colon, digits, dash, digits is a prefix
of `l`. -/
def HeadPat (l : List Char) : Prop :=
  ∃ g d2 d3 rest, GroupOk g ∧ DigitsOnly d2 ∧ DigitsOnly d3 ∧
    l = g ++ (':' :: (d2 ++ ('-' :: (d3 ++ rest))))

/-- The region regex matches somewhere in `l` (what `re.search` looks
for). -/
def ContainsPat (l : List Char) : Prop := ∃ i, HeadPat (l.drop i)

/-! Helper lemmas about the dispatcher. -/

/-- The rate limiter never touches the configured server. -/
theorem rateLimit_server (c : Client) (clock : Rat) :
    (rateLimit c clock).client.server = c.server := by
  unfold rateLimit
  split
  · dsimp only
    split <;> rfl
  · rfl

/-- The rate limiter never touches the configured request limit. -/
theorem rateLimit_reqs_per_sec (c : Client) (clock : Rat) :
    (rateLimit c clock).client.reqs_per_sec = c.reqs_per_sec := by
  unfold rateLimit
  split
  · dsimp only
    split <;> rfl
  · rfl

/-- A dispatch against a single scripted success, fully characterized. -/
theorem perform_success_eq (c : Client) (clock : Rat) (b : Option Json)
    (e : String) (hdrs0 : Option (List (String × String))) (params : Params)
    (doseq : Bool) :
    performRestAction c clock [.success b] e hdrs0 params doseq =
    { data := b,
      client := { (rateLimit c clock).client with
        req_count := (rateLimit c clock).client.req_count + 1 },
      hdrs := withContentType hdrs0,
      clock := (rateLimit c clock).clock, script := [],
      requests := [((rateLimit c clock).client.server ++
        encodeEndpoint e params doseq, withContentType hdrs0)],
      sleeps := (rateLimit c clock).sleeps, stderr := [] } := rfl

/-- The URL of a single-success dispatch is built from the configured
server and the encoded endpoint. -/
theorem perform_success_requests (c : Client) (clock : Rat) (b : Option Json)
    (e : String) (hdrs0 : Option (List (String × String))) (params : Params)
    (doseq : Bool) :
    (performRestAction c clock [.success b] e hdrs0 params doseq).requests =
      [(c.server ++ encodeEndpoint e params doseq, withContentType hdrs0)] := by
  rw [perform_success_eq]
  show [((rateLimit c clock).client.server ++ _, _)] = _
  rw [rateLimit_server]

/-- C1: on an HTTP 429 response carrying `Retry-After: 2`, the dispatcher
sleeps 3 seconds and re-sends the identical request (same encoded endpoint
with the params applied exactly once, same headers) exactly once more — but
the recursive call's return value is discarded on source line 57, so the
outer call returns `None` instead of the parsed JSON body of the successful
retry.  This evaluates the code at the failing input. -/
theorem spec_C1_retry_result_discarded :
    (performRestAction ⟨"S/", 15, 0, 0⟩ 0
      [.httpError 429 "Too Many Requests" (some 2),
        .success (some (.arr [.num 1]))]
      "/e" none [("a", .scalar "b")] false).sleeps = [3] ∧
    (performRestAction ⟨"S/", 15, 0, 0⟩ 0
      [.httpError 429 "Too Many Requests" (some 2),
        .success (some (.arr [.num 1]))]
      "/e" none [("a", .scalar "b")] false).requests =
      [("S//e?a=b", [("Content-Type", "application/json")]),
        ("S//e?a=b", [("Content-Type", "application/json")])] ∧
    (performRestAction ⟨"S/", 15, 0, 0⟩ 0
      [.httpError 429 "Too Many Requests" (some 2),
        .success (some (.arr [.num 1]))]
      "/e" none [("a", .scalar "b")] false).data = none := by
  refine ⟨?_, rfl, rfl⟩
  show ([] : List Rat) ++ ((2 : Rat) + 1) :: ([] ++ []) = [3]
  norm_num

/-- C4 counterexample: with the dispatcher returning the empty list, the
call `get_ensembl_id(species, symbol, only_stable_id=True)` returns `None`
(the empty list is falsy, so the `if genes:` guard skips the indexing) — it
does not fail with an index or key error as the claim states. -/
theorem spec_C4_empty_lookup_counterexample :
    (getEnsemblId ⟨"S/", 15, 0, 0⟩ 0 [.success (some (.arr []))]
      "human" "BRAF" true).1 = .ok none ∧
    (getEnsemblId ⟨"S/", 15, 0, 0⟩ 0 [.success (some (.arr []))]
      "human" "BRAF" true).1 ≠ .error .indexError ∧
    (getEnsemblId ⟨"S/", 15, 0, 0⟩ 0 [.success (some (.arr []))]
      "human" "BRAF" true).1 ≠ .error .keyError := by
  refine ⟨rfl, fun h => ?_, fun h => ?_⟩ <;> exact Except.noConfusion h

/-- C4 amended: when the dispatcher yields an empty result list,
`get_ensembl_id` returns `None` (for either value of the stable-ID flag);
no index or key error is raised, because the falsy empty list short-circuits
the `if genes:` guard. -/
theorem spec_C4_empty_lookup_returns_none (species symbol : String)
    (flag : Bool) (c : Client) (clock : Rat) :
    (getEnsemblId c clock [.success (some (.arr []))] species symbol flag).1
      = .ok none := rfl

/-- C8 counterexample: with `expand` unset, the endpoint that reaches the
transport is `/lookup/id/ENSE00001939332?` — with a trailing question mark —
not the plain path `/lookup/id/ENSE00001939332` the claim states. -/
theorem spec_C8_plain_path_counterexample :
    ((getEnsemblInfo ⟨"S/", 15, 0, 0⟩ 0 [.success none]
      "ENSE00001939332" false).2).requests =
      [("S//lookup/id/ENSE00001939332?",
        [("Content-Type", "application/json")])] ∧
    ((getEnsemblInfo ⟨"S/", 15, 0, 0⟩ 0 [.success none]
      "ENSE00001939332" false).2).requests ≠
      [("S//lookup/id/ENSE00001939332",
        [("Content-Type", "application/json")])] := by
  refine ⟨rfl, ?_⟩
  decide

/-- C8 amended: `get_ensembl_info` dispatches to
`/lookup/id/{identifier}?expand=1` when the expand flag is set and to
`/lookup/id/{identifier}?` — a trailing `?` with an empty query, not the
plain path — when it is not, and returns the decoded object when the body
is truthy and nothing otherwise. -/
theorem spec_C8_lookup_endpoint (c : Client) (clock : Rat)
    (identifier : String) (expand : Bool) (b : Option Json) :
    ((getEnsemblInfo c clock [.success b] identifier expand).2).requests =
      [(c.server ++
          (if expand then "/lookup/id/" ++ identifier ++ "?expand=1"
            else "/lookup/id/" ++ identifier ++ "?"),
        [("Content-Type", "application/json")])] ∧
    (getEnsemblInfo c clock [.success b] identifier expand).1 =
      (match b with
        | some info => if info.truthy then some info else none
        | none => none) := by
  refine ⟨?_, rfl⟩
  cases expand
  · exact perform_success_requests c clock b
      ("/lookup/id/" ++ identifier ++ "?") none [] false
  · exact perform_success_requests c clock b
      ("/lookup/id/" ++ identifier ++ "?expand=1") none [] false

/-- A dispatch hitting an HTTP error other than 429, fully characterized:
the diagnostic line goes to stderr and `data` stays `None`. -/
theorem perform_httpError_ne_eq (c : Client) (clock : Rat) (code : Nat)
    (reason : String) (ra : Option Rat) (rest : List HTTPResponse)
    (endpoint : String) (hdrs0 : Option (List (String × String)))
    (params : Params) (doseq : Bool) (h : code ≠ 429) :
    performRestAction c clock (.httpError code reason ra :: rest)
      endpoint hdrs0 params doseq =
    { data := none, client := (rateLimit c clock).client,
      hdrs := withContentType hdrs0, clock := (rateLimit c clock).clock,
      script := rest,
      requests := [((rateLimit c clock).client.server ++
        encodeEndpoint endpoint params doseq, withContentType hdrs0)],
      sleeps := (rateLimit c clock).sleeps,
      stderr := ["Request failed for " ++ encodeEndpoint endpoint params doseq
        ++ ": Status code: " ++ toString code ++ " Reason: " ++ reason
        ++ "\n"] } := by
  simp only [performRestAction]
  rw [if_neg h]

/-- A dispatch hitting HTTP 429 with a `Retry-After` value, fully
characterized: one sleep of `r + 1`, then the recursive retry with the
already-encoded endpoint, the same headers and no params; the retry's
`data` is discarded. -/
theorem perform_429_retry_eq (c : Client) (clock : Rat) (reason : String)
    (r : Rat) (rest : List HTTPResponse) (endpoint : String)
    (hdrs0 : Option (List (String × String))) (params : Params)
    (doseq : Bool) :
    performRestAction c clock (.httpError 429 reason (some r) :: rest)
      endpoint hdrs0 params doseq =
    (let hdrs := withContentType hdrs0
     let endpoint2 := encodeEndpoint endpoint params doseq
     let t := rateLimit c clock
     let out := performRestAction t.client (t.clock + (r + 1)) rest endpoint2
       (some hdrs) [] false
     { data := none, client := out.client, hdrs := out.hdrs,
       clock := out.clock, script := out.script,
       requests := (t.client.server ++ endpoint2, hdrs) :: out.requests,
       sleeps := t.sleeps ++ (r + 1) :: out.sleeps,
       stderr := out.stderr }) := rfl

/-- A dispatch hitting HTTP 429 without a `Retry-After` value: nothing
happens beyond the request itself; `data` stays `None`. -/
theorem perform_429_noRetry_eq (c : Client) (clock : Rat) (reason : String)
    (rest : List HTTPResponse) (endpoint : String)
    (hdrs0 : Option (List (String × String))) (params : Params)
    (doseq : Bool) :
    performRestAction c clock (.httpError 429 reason none :: rest)
      endpoint hdrs0 params doseq =
    { data := none, client := (rateLimit c clock).client,
      hdrs := withContentType hdrs0, clock := (rateLimit c clock).clock,
      script := rest,
      requests := [((rateLimit c clock).client.server ++
        encodeEndpoint endpoint params doseq, withContentType hdrs0)],
      sleeps := (rateLimit c clock).sleeps, stderr := [] } := rfl

/-- C5: for every HTTP error status other than 429, the dispatcher writes
the diagnostic line — naming the (encoded) endpoint, the status code and
the reason — to stderr, and returns `None` to the caller; the model's
total return type shows no exception reaches the caller. -/
theorem spec_C5_http_error_reported (c : Client) (clock : Rat)
    (endpoint : String) (params : Params) (doseq : Bool) (code : Nat)
    (reason : String) (ra : Option Rat) (h : code ≠ 429) :
    (performRestAction c clock [.httpError code reason ra]
      endpoint none params doseq).data = none ∧
    (performRestAction c clock [.httpError code reason ra]
      endpoint none params doseq).stderr =
      ["Request failed for " ++ encodeEndpoint endpoint params doseq
        ++ ": Status code: " ++ toString code ++ " Reason: " ++ reason
        ++ "\n"] := by
  rw [perform_httpError_ne_eq c clock code reason ra [] endpoint none
    params doseq h]
  exact ⟨rfl, rfl⟩

/-- C5 witness: a 404 against `/x` yields no data and the exact diagnostic
line. -/
theorem spec_C5_http_error_reported_witness :
    (performRestAction ⟨"S/", 15, 0, 0⟩ 0 [.httpError 404 "Not Found" none]
      "/x" none [] false).data = none ∧
    (performRestAction ⟨"S/", 15, 0, 0⟩ 0 [.httpError 404 "Not Found" none]
      "/x" none [] false).stderr =
      ["Request failed for /x: Status code: 404 Reason: Not Found\n"] :=
  spec_C5_http_error_reported ⟨"S/", 15, 0, 0⟩ 0 "/x" [] false 404
    "Not Found" none (by decide)

/-! Frame lemmas for C9: the dispatcher leaves the configuration fields of
the client untouched, and its only effect on the caller's header dict is
the `Content-Type` default. -/

/-- Appending a fresh binding is found by lookup when the key was absent. -/
theorem dictLookup_append_self (h : List (String × String)) (k v : String)
    (hk : dictLookup k h = none) : dictLookup k (h ++ [(k, v)]) = some v := by
  induction h with
  | nil => simp [dictLookup]
  | cons p rest ih =>
      obtain ⟨k2, v2⟩ := p
      simp only [List.cons_append, dictLookup] at hk ⊢
      split at hk
      · exact absurd hk (by simp)
      · rw [if_neg (by assumption)]
        exact ih hk

/-- When the key is present, the `Content-Type` default is a no-op. -/
theorem withContentType_of_some (h : List (String × String)) (v : String)
    (hk : dictLookup "Content-Type" h = some v) :
    withContentType (some h) = h := by
  unfold withContentType
  simp [hk]

/-- When the key is absent, the `Content-Type` default appends it. -/
theorem withContentType_of_none (h : List (String × String))
    (hk : dictLookup "Content-Type" h = none) :
    withContentType (some h) =
      h ++ [("Content-Type", "application/json")] := by
  unfold withContentType
  simp [hk]

/-- The dispatcher never modifies the configured server or request limit,
for any transport script (retries included). -/
theorem perform_config_const (script : List HTTPResponse) :
    ∀ (c : Client) (clock : Rat) (endpoint : String)
      (hdrs0 : Option (List (String × String))) (params : Params)
      (doseq : Bool),
    (performRestAction c clock script endpoint hdrs0 params doseq).client.server
      = c.server ∧
    (performRestAction c clock script endpoint hdrs0 params
      doseq).client.reqs_per_sec = c.reqs_per_sec := by
  induction script with
  | nil =>
      intro c clock endpoint hdrs0 params doseq
      exact ⟨rateLimit_server c clock, rateLimit_reqs_per_sec c clock⟩
  | cons resp rest ih =>
      intro c clock endpoint hdrs0 params doseq
      match resp with
      | .success content =>
          exact ⟨rateLimit_server c clock, rateLimit_reqs_per_sec c clock⟩
      | .httpError code reason retryAfter =>
          by_cases h : code = 429
          · subst h
            match retryAfter with
            | some r =>
                rw [perform_429_retry_eq]
                have h2 := ih (rateLimit c clock).client
                  ((rateLimit c clock).clock + (r + 1))
                  (encodeEndpoint endpoint params doseq)
                  (some (withContentType hdrs0)) [] false
                exact ⟨h2.1.trans (rateLimit_server c clock),
                  h2.2.trans (rateLimit_reqs_per_sec c clock)⟩
            | none =>
                rw [perform_429_noRetry_eq]
                exact ⟨rateLimit_server c clock,
                  rateLimit_reqs_per_sec c clock⟩
          · rw [perform_httpError_ne_eq c clock code reason retryAfter rest
              endpoint hdrs0 params doseq h]
            exact ⟨rateLimit_server c clock, rateLimit_reqs_per_sec c clock⟩

/-- Once the header dict carries a `Content-Type`, the dispatcher returns
it unchanged, for any transport script (retries included). -/
theorem perform_hdrs_stable (script : List HTTPResponse) :
    ∀ (c : Client) (clock : Rat) (endpoint : String)
      (h : List (String × String)) (params : Params) (doseq : Bool)
      (v : String), dictLookup "Content-Type" h = some v →
    (performRestAction c clock script endpoint (some h) params doseq).hdrs
      = h := by
  induction script with
  | nil =>
      intro c clock endpoint h params doseq v hk
      exact withContentType_of_some h v hk
  | cons resp rest ih =>
      intro c clock endpoint h params doseq v hk
      match resp with
      | .success content =>
          exact withContentType_of_some h v hk
      | .httpError code reason retryAfter =>
          by_cases hc : code = 429
          · subst hc
            match retryAfter with
            | some r =>
                rw [perform_429_retry_eq]
                show (performRestAction _ _ rest _
                  (some (withContentType (some h))) [] false).hdrs = h
                rw [withContentType_of_some h v hk]
                exact ih _ _ _ h [] false v hk
            | none =>
                rw [perform_429_noRetry_eq]
                exact withContentType_of_some h v hk
          · rw [perform_httpError_ne_eq c clock code reason retryAfter rest
              endpoint (some h) params doseq hc]
            exact withContentType_of_some h v hk

/-- C9: the dispatcher mutates the caller's header dict in place — when the
dict lacks a `Content-Type` key, after the call the caller's dict carries
`Content-Type: application/json` (appended, the rest untouched) — and no
other caller-visible client field beyond the throttle counters changes: the
server and the request limit are preserved. -/
theorem spec_C9_header_mutation (c : Client) (clock : Rat)
    (script : List HTTPResponse) (endpoint : String)
    (h : List (String × String)) (params : Params) (doseq : Bool)
    (hk : dictLookup "Content-Type" h = none) :
    (performRestAction c clock script endpoint (some h) params doseq).hdrs
      = h ++ [("Content-Type", "application/json")] ∧
    dictLookup "Content-Type"
      (performRestAction c clock script endpoint (some h) params doseq).hdrs
      = some "application/json" ∧
    (performRestAction c clock script endpoint (some h) params
      doseq).client.server = c.server ∧
    (performRestAction c clock script endpoint (some h) params
      doseq).client.reqs_per_sec = c.reqs_per_sec := by
  have hdl : dictLookup "Content-Type"
      (h ++ [("Content-Type", "application/json")]) =
      some "application/json" :=
    dictLookup_append_self h "Content-Type" "application/json" hk
  have hmain : (performRestAction c clock script endpoint (some h) params
      doseq).hdrs = h ++ [("Content-Type", "application/json")] := by
    match script with
    | [] => exact withContentType_of_none h hk
    | resp :: rest =>
        match resp with
        | .success content => exact withContentType_of_none h hk
        | .httpError code reason retryAfter =>
            by_cases hc : code = 429
            · subst hc
              match retryAfter with
              | some r =>
                  rw [perform_429_retry_eq]
                  show (performRestAction _ _ rest _
                    (some (withContentType (some h))) [] false).hdrs = _
                  rw [withContentType_of_none h hk]
                  exact perform_hdrs_stable rest _ _ _ _ [] false
                    "application/json" hdl
              | none =>
                  rw [perform_429_noRetry_eq]
                  exact withContentType_of_none h hk
            · rw [perform_httpError_ne_eq c clock code reason retryAfter rest
                endpoint (some h) params doseq hc]
              exact withContentType_of_none h hk
  refine ⟨hmain, ?_, (perform_config_const script c clock endpoint (some h)
    params doseq).1, (perform_config_const script c clock endpoint (some h)
    params doseq).2⟩
  rw [hmain]
  exact hdl

/-- C9 witness: a header dict without `Content-Type` comes back with the
JSON content type appended, and the configuration is untouched. -/
theorem spec_C9_header_mutation_witness :
    (performRestAction ⟨"S/", 15, 0, 0⟩ 0 [.success none] "/x"
      (some [("Accept", "text/plain")]) [] false).hdrs
      = [("Accept", "text/plain"),
          ("Content-Type", "application/json")] ∧
    dictLookup "Content-Type"
      (performRestAction ⟨"S/", 15, 0, 0⟩ 0 [.success none] "/x"
        (some [("Accept", "text/plain")]) [] false).hdrs
      = some "application/json" ∧
    (performRestAction ⟨"S/", 15, 0, 0⟩ 0 [.success none] "/x"
      (some [("Accept", "text/plain")]) [] false).client.server = "S/" ∧
    (performRestAction ⟨"S/", 15, 0, 0⟩ 0 [.success none] "/x"
      (some [("Accept", "text/plain")]) [] false).client.reqs_per_sec
      = 15 :=
  spec_C9_header_mutation ⟨"S/", 15, 0, 0⟩ 0 [.success none] "/x"
    [("Accept", "text/plain")] [] false (by decide)

/-- C10: calling `get_overlap` with an explicitly empty feature list behaves
identically to omitting the argument — the falsy empty list is replaced by
the default `["gene"]` by `features = features or ["gene"]`, so no request
with zero feature filters can be issued through this method. -/
theorem spec_C10_empty_features_default (c : Client) (clock : Rat)
    (script : List HTTPResponse) (species : String) (region : RegionInput) :
    getOverlap c clock script species region (some []) =
    getOverlap c clock script species region none := rfl

/-! Throttle lemmas for C2. -/

/-- Below the limit, the rate limiter is the identity and sleeps nothing. -/
theorem rateLimit_below (c : Client) (clock : Rat)
    (h : c.req_count < c.reqs_per_sec) :
    rateLimit c clock = ⟨c, clock, []⟩ := by
  unfold rateLimit
  rw [if_neg (by omega)]

/-- A run of successful calls that fits under the per-second limit sleeps
nothing, counts every request, and keeps the configured limit. -/
theorem runCalls_no_sleep (calls : List (Rat × String × Option Json)) :
    ∀ (c : Client) (clock : Rat),
    c.req_count + calls.length ≤ c.reqs_per_sec →
    (runCalls c clock calls).sleeps = [] ∧
    (runCalls c clock calls).client.req_count
      = c.req_count + calls.length ∧
    (runCalls c clock calls).client.reqs_per_sec = c.reqs_per_sec := by
  induction calls with
  | nil =>
      intro c clock _
      exact ⟨rfl, rfl, rfl⟩
  | cons call rest ih =>
      obtain ⟨gap, endp, body⟩ := call
      intro c clock h
      have hlt : c.req_count < c.reqs_per_sec := by
        simp only [List.length_cons] at h
        omega
      have hout : performRestAction c (clock + gap) [.success body] endp
          none [] false =
          { data := body, client := { c with req_count := c.req_count + 1 },
            hdrs := [("Content-Type", "application/json")],
            clock := clock + gap, script := [],
            requests := [(c.server ++ endp,
              [("Content-Type", "application/json")])],
            sleeps := [], stderr := [] } := by
        rw [perform_success_eq, rateLimit_below c (clock + gap) hlt]
        rfl
      have hrun : runCalls c clock ((gap, endp, body) :: rest) =
          { client := (runCalls { c with req_count := c.req_count + 1 }
              (clock + gap) rest).client,
            clock := (runCalls { c with req_count := c.req_count + 1 }
              (clock + gap) rest).clock,
            sleeps := [] ++ (runCalls { c with req_count := c.req_count + 1 }
              (clock + gap) rest).sleeps } := by
        simp only [runCalls, hout]
      have hih := ih { c with req_count := c.req_count + 1 } (clock + gap)
        (by
          show c.req_count + 1 + rest.length ≤ c.reqs_per_sec
          simp only [List.length_cons] at h
          omega)
      rw [hrun]
      refine ⟨?_, ?_, ?_⟩
      · show [] ++ (runCalls _ _ rest).sleeps = []
        rw [hih.1]
        rfl
      · show (runCalls _ _ rest).client.req_count = _
        rw [hih.2.1]
        show c.req_count + 1 + rest.length = c.req_count +
          ((gap, endp, body) :: rest).length
        simp only [List.length_cons]
        omega
      · exact hih.2.2

/-- Over the per-second limit with the window not yet elapsed, the rate
limiter sleeps out exactly the remaining fraction of the second. -/
theorem rateLimit_over (c : Client) (clock : Rat)
    (hc : c.reqs_per_sec ≤ c.req_count) (hd : clock - c.last_req < 1) :
    rateLimit c clock =
      { client := { c with
          req_count := 0,
          last_req := clock + (1 - (clock - c.last_req)) },
        clock := clock + (1 - (clock - c.last_req)),
        sleeps := [1 - (clock - c.last_req)] } := by
  unfold rateLimit
  rw [if_pos hc]
  dsimp only
  rw [if_pos hd]

/-- C2: the fixed-window throttle of `perform_rest_action`: (1) from a
fresh counter, a run of at most `reqs_per_sec` successful calls never
sleeps; (2) when the count has reached the limit and less than one second
has elapsed since the checkpoint, the next call sleeps exactly the
remaining fraction of the second; (3) whenever the count has reached the
limit, the check resets the count to zero and sets the checkpoint to the
current (post-sleep) time, whether or not a sleep occurred. -/
theorem spec_C2_throttle_invariants :
    (∀ (c : Client) (clock : Rat)
      (calls : List (Rat × String × Option Json)),
      c.req_count = 0 → calls.length ≤ c.reqs_per_sec →
      (runCalls c clock calls).sleeps = []) ∧
    (∀ (c : Client) (clock : Rat) (b : Option Json) (e : String),
      c.reqs_per_sec ≤ c.req_count → clock - c.last_req < 1 →
      (performRestAction c clock [.success b] e none [] false).sleeps =
        [1 - (clock - c.last_req)]) ∧
    (∀ (c : Client) (clock : Rat),
      c.reqs_per_sec ≤ c.req_count →
      (rateLimit c clock).client.req_count = 0 ∧
      (rateLimit c clock).client.last_req = (rateLimit c clock).clock) := by
  refine ⟨fun c clock calls h0 hle => ?_, fun c clock b e hc hd => ?_,
    fun c clock hc => ?_⟩
  · exact (runCalls_no_sleep calls c clock (by omega)).1
  · rw [perform_success_eq]
    show (rateLimit c clock).sleeps = _
    rw [rateLimit_over c clock hc hd]
  · unfold rateLimit
    rw [if_pos hc]
    dsimp only
    split <;> exact ⟨rfl, rfl⟩

/-- C2 witness: two calls under a limit of two sleep nothing; with the
counter at the limit of one and only half a second elapsed, the next call
sleeps the remaining half second; and the over-limit check resets the
counter and checkpoint. -/
theorem spec_C2_throttle_invariants_witness :
    (runCalls ⟨"S/", 2, 0, 0⟩ 0 [(0, "/a", none), (0, "/b", none)]).sleeps
      = [] ∧
    (performRestAction ⟨"S/", 1, 1, 0⟩ (1/2) [.success none] "/a"
      none [] false).sleeps = [1 - ((1/2 : Rat) - 0)] ∧
    (rateLimit ⟨"S/", 1, 1, 0⟩ (1/2)).client.req_count = 0 ∧
    (rateLimit ⟨"S/", 1, 1, 0⟩ (1/2)).client.last_req
      = (rateLimit ⟨"S/", 1, 1, 0⟩ (1/2)).clock :=
  ⟨spec_C2_throttle_invariants.1 ⟨"S/", 2, 0, 0⟩ 0
      [(0, "/a", none), (0, "/b", none)] rfl (by decide),
    spec_C2_throttle_invariants.2.1 ⟨"S/", 1, 1, 0⟩ (1/2) none "/a"
      (by decide) (by norm_num),
    (spec_C2_throttle_invariants.2.2 ⟨"S/", 1, 1, 0⟩ (1/2) (by decide)).1,
    (spec_C2_throttle_invariants.2.2 ⟨"S/", 1, 1, 0⟩ (1/2) (by decide)).2⟩

/-! The executable matcher agrees with the declarative regex predicate. -/

/-- Unfolding of `matchTail` at a leading colon. -/
theorem matchTail_cons_colon (r1 : List Char) :
    matchTail (':' :: r1) =
      (match r1.dropWhile isDigitB with
        | '-' :: r3 =>
            some (':' :: (r1.takeWhile isDigitB ++
              '-' :: r3.takeWhile isDigitB))
        | _ => none) := rfl

/-- Unfolding of `matchHere` at a cons cell. -/
theorem matchHere_cons (c : Char) (r : List Char) :
    matchHere (c :: r) =
      (if c = 'X' ∨ c = 'Y' then (matchTail r).map (fun m => c :: m)
       else (matchTail ((c :: r).dropWhile isDigitB)).map
         (fun m => (c :: r).takeWhile isDigitB ++ m)) := rfl

/-- Unfolding of `format_region` on a string argument. -/
theorem format_region_str (s : String) :
    format_region (.str s) =
      (match reSearch s.toList with
        | some m => .ok (String.mk m)
        | none => .error .attributeError) := rfl

/-- Unfolding of `reSearch` at a cons cell. -/
theorem reSearch_cons (c : Char) (r : List Char) :
    reSearch (c :: r) =
      (match matchHere (c :: r) with
        | some m => some m
        | none => reSearch r) := rfl

/-- Greedy digit runs are exact when a non-digit separator follows. -/
theorem takeWhile_digits_append (d : List Char) (hd : DigitsOnly d)
    (c0 : Char) (hc : isDigitB c0 = false) (z : List Char) :
    (d ++ c0 :: z).takeWhile isDigitB = d ∧
    (d ++ c0 :: z).dropWhile isDigitB = c0 :: z := by
  induction d with
  | nil => simp [List.takeWhile_cons, List.dropWhile_cons, hc]
  | cons a d ih =>
      have ha : isDigitB a = true := hd a (by simp)
      have ih2 := ih (fun c hcm => hd c (by simp [hcm]))
      simp [List.takeWhile_cons, List.dropWhile_cons, ha, ih2.1, ih2.2]

/-- Mapping preserves `isSome`. -/
theorem isSome_map_of_isSome (o : Option (List Char))
    (f : List Char → List Char) (h : o.isSome = true) :
    (o.map f).isSome = true := by
  obtain ⟨v, hv⟩ := Option.isSome_iff_exists.mp h
  rw [hv]
  rfl

/-- Completeness of the tail matcher: any declarative tail decomposition
makes it succeed. -/
theorem matchTail_complete (d2 d3 rest : List Char) (h2 : DigitsOnly d2)
    (_h3 : DigitsOnly d3) :
    (matchTail (':' :: (d2 ++ ('-' :: (d3 ++ rest))))).isSome = true := by
  rw [matchTail_cons_colon]
  rw [(takeWhile_digits_append d2 h2 '-' (by decide) (d3 ++ rest)).2]
  rfl

/-- Soundness of the tail matcher: success yields a declarative tail
decomposition. -/
theorem matchTail_sound (t m : List Char) (h : matchTail t = some m) :
    ∃ d2 d3 rest, DigitsOnly d2 ∧ DigitsOnly d3 ∧
      t = ':' :: (d2 ++ ('-' :: (d3 ++ rest))) := by
  unfold matchTail at h
  split at h
  next r1 =>
    split at h
    next r3 heq =>
      refine ⟨r1.takeWhile isDigitB, r3.takeWhile isDigitB,
        r3.dropWhile isDigitB, ?_, ?_, ?_⟩
      · exact fun c hc => List.mem_takeWhile_imp hc
      · exact fun c hc => List.mem_takeWhile_imp hc
      · have h1 := @List.takeWhile_append_dropWhile _ isDigitB r1
        have h3 := @List.takeWhile_append_dropWhile _ isDigitB r3
        calc (':' :: r1 : List Char)
            = ':' :: (r1.takeWhile isDigitB ++ r1.dropWhile isDigitB) := by
              rw [h1]
          _ = ':' :: (r1.takeWhile isDigitB ++ ('-' :: r3)) := by rw [heq]
          _ = ':' :: (r1.takeWhile isDigitB ++
              ('-' :: (r3.takeWhile isDigitB ++ r3.dropWhile isDigitB))) := by
              rw [h3]
    next hne => exact Option.noConfusion h
  next hne => exact Option.noConfusion h

/-- Soundness of the head matcher: success means the regex matches at the
head. -/
theorem matchHere_sound (l m : List Char) (h : matchHere l = some m) :
    HeadPat l := by
  match l with
  | [] => exact Option.noConfusion h
  | c :: r =>
      rw [matchHere_cons] at h
      split at h
      next hcxy =>
        obtain ⟨m2, hm2, _⟩ := Option.map_eq_some'.mp h
        obtain ⟨d2, d3, rest, hd2, hd3, ht⟩ := matchTail_sound r m2 hm2
        refine ⟨[c], d2, d3, rest, ?_, hd2, hd3, ?_⟩
        · rcases hcxy with h1 | h1
          · exact Or.inl (by rw [h1])
          · exact Or.inr (Or.inl (by rw [h1]))
        · rw [ht]
          rfl
      next hcxy =>
        obtain ⟨m2, hm2, _⟩ := Option.map_eq_some'.mp h
        obtain ⟨d2, d3, rest, hd2, hd3, ht⟩ := matchTail_sound _ m2 hm2
        refine ⟨(c :: r).takeWhile isDigitB, d2, d3, rest,
          Or.inr (Or.inr (fun x hx => List.mem_takeWhile_imp hx)),
          hd2, hd3, ?_⟩
        conv_lhs => rw [← @List.takeWhile_append_dropWhile _ isDigitB (c :: r)]
        rw [ht]

/-- Completeness of the head matcher: a declarative match at the head makes
it succeed. -/
theorem matchHere_complete (l : List Char) (hp : HeadPat l) :
    (matchHere l).isSome = true := by
  obtain ⟨g, d2, d3, rest, hg, h2, h3, hl⟩ := hp
  rcases hg with hgX | hgY | hgD
  · subst hgX
    subst hl
    show ((matchTail (':' :: (d2 ++ ('-' :: (d3 ++ rest))))).map
      (fun m => 'X' :: m)).isSome = true
    exact isSome_map_of_isSome _ _ (matchTail_complete d2 d3 rest h2 h3)
  · subst hgY
    subst hl
    show ((matchTail (':' :: (d2 ++ ('-' :: (d3 ++ rest))))).map
      (fun m => 'Y' :: m)).isSome = true
    exact isSome_map_of_isSome _ _ (matchTail_complete d2 d3 rest h2 h3)
  · cases g with
    | nil =>
        subst hl
        show ((matchTail (':' :: (d2 ++ ('-' :: (d3 ++ rest))))).map
          (fun m => ([] : List Char) ++ m)).isSome = true
        exact isSome_map_of_isSome _ _ (matchTail_complete d2 d3 rest h2 h3)
    | cons a g2 =>
        have ha : isDigitB a = true := hgD a (by simp)
        have hne : ¬(a = 'X' ∨ a = 'Y') := by
          rintro (h1 | h1) <;> subst h1 <;> exact absurd ha (by decide)
        subst hl
        show (matchHere
          (a :: (g2 ++ (':' :: (d2 ++ ('-' :: (d3 ++ rest))))))).isSome = true
        rw [matchHere_cons, if_neg hne]
        have hdw := (takeWhile_digits_append (a :: g2) hgD ':' (by decide)
          (d2 ++ ('-' :: (d3 ++ rest)))).2
        rw [List.cons_append] at hdw
        rw [hdw]
        exact isSome_map_of_isSome _ _ (matchTail_complete d2 d3 rest h2 h3)

/-- Soundness of the scan: a found match means the regex matches
somewhere. -/
theorem reSearch_sound (l : List Char) :
    ∀ m, reSearch l = some m → ContainsPat l := by
  induction l with
  | nil => exact fun m h => Option.noConfusion h
  | cons c r ih =>
      intro m h
      rw [reSearch_cons] at h
      cases hm : matchHere (c :: r) with
      | some m2 =>
          exact ⟨0, by rw [List.drop_zero]; exact matchHere_sound _ m2 hm⟩
      | none =>
          simp only [hm] at h
          obtain ⟨i, hp⟩ := ih m h
          exact ⟨i + 1, by rw [List.drop_succ_cons]; exact hp⟩

/-- Completeness of the scan: when the regex matches somewhere the scan
finds a match. -/
theorem reSearch_complete (l : List Char) (hc : ContainsPat l) :
    (reSearch l).isSome = true := by
  induction l with
  | nil =>
      obtain ⟨i, hp⟩ := hc
      rw [List.drop_nil] at hp
      obtain ⟨g, d2, d3, rest, hg, h2, h3, hl⟩ := hp
      cases g <;> simp at hl
  | cons c r ih =>
      rw [reSearch_cons]
      cases hm : matchHere (c :: r) with
      | some m => rfl
      | none =>
          obtain ⟨i, hp⟩ := hc
          cases i with
          | zero =>
              rw [List.drop_zero] at hp
              have h2 := matchHere_complete _ hp
              rw [hm] at h2
              exact absurd h2 (by decide)
          | succ j =>
              rw [List.drop_succ_cons] at hp
              exact ih ⟨j, hp⟩

/-- A failed scan refutes the declarative predicate. -/
theorem reSearch_none_not_contains (l : List Char) (h : reSearch l = none) :
    ¬ ContainsPat l := fun hc => by
  have h2 := reSearch_complete l hc
  rw [h] at h2
  exact absurd h2 (by decide)

/-- C6: for every string that does not contain the region regex pattern
(and is not a sequence), `format_region` fails fast: `re.search` returns
`None` and `m.group()` raises an uncaught `AttributeError` — the call
errors out rather than returning any value. -/
theorem spec_C6_nonmatching_region_fails (s : String)
    (h : ¬ ContainsPat s.toList) :
    format_region (.str s) = .error .attributeError := by
  cases hm : reSearch s.toList with
  | some m => exact absurd (reSearch_sound s.toList m hm) h
  | none =>
      rw [format_region_str, hm]

/-- C6 witness: the string `hello` contains no match, and formatting it
raises. -/
theorem spec_C6_nonmatching_region_fails_witness :
    format_region (.str "hello") = .error .attributeError :=
  spec_C6_nonmatching_region_fails "hello"
    (reSearch_none_not_contains _ rfl)

/-- C3: `format_region` on the 3-element sequence
`("7","140424943","140624564")` yields `7:140424943-140624564`; on the
string `7:140424943-140624564-1` it yields `7:140424943-140624564`,
stripping the trailing strand suffix; in general a 3-element sequence is
formatted as `chrom:start-end`, and any string containing the pattern gets
its first regex match extracted. -/
theorem spec_C3_format_region :
    format_region (.str "7:140424943-140624564-1")
      = .ok "7:140424943-140624564" ∧
    format_region (.seq "7" "140424943" "140624564")
      = .ok "7:140424943-140624564" ∧
    (∀ a b c : String,
      format_region (.seq a b c) = .ok (a ++ ":" ++ b ++ "-" ++ c)) ∧
    (∀ s : String, ContainsPat s.toList →
      ∃ m, reSearch s.toList = some m ∧
        format_region (.str s) = .ok (String.mk m)) := by
  refine ⟨rfl, rfl, fun a b c => rfl, fun s hc => ?_⟩
  cases hm : reSearch s.toList with
  | some m =>
      refine ⟨m, rfl, ?_⟩
      rw [format_region_str, hm]
  | none => exact absurd hc (reSearch_none_not_contains _ hm)

/-- C3 witness: the concrete equalities, plus the general parts applied to
`X:12-34` (which contains the pattern via an explicit decomposition) and to
a concrete sequence. -/
theorem spec_C3_format_region_witness :
    format_region (.str "7:140424943-140624564-1")
      = .ok "7:140424943-140624564" ∧
    (∃ m, reSearch "X:12-34".toList = some m ∧
      format_region (.str "X:12-34") = .ok (String.mk m)) ∧
    format_region (.seq "a" "1" "2") = .ok ("a" ++ ":" ++ "1" ++ "-" ++ "2")
    :=
  ⟨spec_C3_format_region.1,
    spec_C3_format_region.2.2.2 "X:12-34"
      ⟨0, ['X'], ['1', '2'], ['3', '4'], [],
        Or.inl rfl, by decide, by decide, by decide⟩,
    spec_C3_format_region.2.2.1 "a" "1" "2"⟩

/-- With `doseq` truthy, a sequence-valued `feature` parameter encodes as
one `feature=` pair per element, joined by `&` — not comma-joined. -/
theorem urlencode_feature_seq (fs : List String) :
    urlencode [("feature", ParamValue.seq fs)] true =
      String.intercalate "&" (fs.map (fun f => "feature=" ++ quotePlus f)) := by
  show String.intercalate "&"
    ((fs.map (fun x => quotePlus "feature" ++ "=" ++ quotePlus x)) ++ []) = _
  rw [List.append_nil]
  rfl

/-- C7: `get_overlap` serializes a non-empty feature list as repeated
`feature=` query parameters (via `doseq=1`), normalizes the region through
`format_region` before dispatching to the region-overlap endpoint, and
defaults the feature list to `["gene"]` when none is supplied. -/
theorem spec_C7_overlap_features (c : Client) (clock : Rat)
    (species : String) (region : RegionInput) (reg : String)
    (fs : List String) (b : Option Json) (hfs : fs ≠ [])
    (hreg : format_region region = .ok reg) :
    (∃ res, getOverlap c clock [.success b] species region (some fs)
        = .ok res ∧
      res.2.requests =
        [(c.server ++ ("/overlap/region/" ++ species ++ "/" ++ reg ++ "?" ++
            String.intercalate "&"
              (fs.map (fun f => "feature=" ++ quotePlus f))),
          [("Content-Type", "application/json")])]) ∧
    getOverlap c clock [.success b] species region none =
      getOverlap c clock [.success b] species region (some ["gene"]) := by
  constructor
  · obtain ⟨f0, ftl, rfl⟩ : ∃ h t, fs = h :: t := by
      cases fs with
      | nil => exact absurd rfl hfs
      | cons f0 ftl => exact ⟨f0, ftl, rfl⟩
    unfold getOverlap
    rw [hreg]
    refine ⟨_, rfl, ?_⟩
    rw [perform_success_requests]
    show [(c.server ++ encodeEndpoint
      ("/overlap/region/" ++ species ++ "/" ++ reg)
      [("feature", ParamValue.seq (f0 :: ftl))] true, _)] = _
    rw [show encodeEndpoint ("/overlap/region/" ++ species ++ "/" ++ reg)
        [("feature", ParamValue.seq (f0 :: ftl))] true =
        ("/overlap/region/" ++ species ++ "/" ++ reg) ++ "?" ++
          urlencode [("feature", ParamValue.seq (f0 :: ftl))] true from rfl]
    rw [urlencode_feature_seq]
    rfl
  · rfl

/-- C7 witness: two features serialize as two repeated `feature`
parameters in the dispatched URL, and omitting the list equals passing
`["gene"]`. -/
theorem spec_C7_overlap_features_witness :
    (∃ res, getOverlap ⟨"S/", 15, 0, 0⟩ 0 [.success none] "human"
        (.str "7:1-2") (some ["gene", "exon"]) = .ok res ∧
      res.2.requests =
        [("S/" ++ ("/overlap/region/" ++ "human" ++ "/" ++ "7:1-2" ++ "?" ++
            String.intercalate "&"
              (["gene", "exon"].map (fun f => "feature=" ++ quotePlus f))),
          [("Content-Type", "application/json")])]) ∧
    getOverlap ⟨"S/", 15, 0, 0⟩ 0 [.success none] "human" (.str "7:1-2")
        none =
      getOverlap ⟨"S/", 15, 0, 0⟩ 0 [.success none] "human" (.str "7:1-2")
        (some ["gene"]) :=
  spec_C7_overlap_features ⟨"S/", 15, 0, 0⟩ 0 "human" (.str "7:1-2")
    "7:1-2" ["gene", "exon"] none (by decide) rfl

end EnsemblAPI
